import Mathlib

/-!
Verification of the SFTP virtual-drive core (tauri-virtual-drive).

Shallow embedding of the Rust sources under src-tauri/src/:
  * filesystem.rs — stat/readdir cache, handle allocation, attribute
    conversion, and the read-directory enumeration loop;
  * sftp_client.rs — connect authentication flow and ranged reads;
  * mount.rs — mount lifecycle bookkeeping.

Machine integers are modeled as Nat with explicit reduction modulo 2^64
(resp. 2^32) exactly where the Rust release build wraps.
-/

/-- Wraparound of unsigned 64-bit arithmetic (Rust u64 in release mode). -/
def u64 (n : Nat) : Nat := n % 18446744073709551616

/-- Wraparound of unsigned 32-bit arithmetic (Rust `as u32` cast). -/
def u32 (n : Nat) : Nat := n % 4294967296

/-- Embedding of ssh2::FileStat: all fields optional, values are u64-sized. -/
structure FileStat where
  size : Option Nat
  uid : Option Nat
  gid : Option Nat
  perm : Option Nat
  atime : Option Nat
  mtime : Option Nat
  deriving Repr, DecidableEq

/-- Embedding of ssh2::FileStat::is_dir: the S_IFMT bits of perm (0 when
absent) equal S_IFDIR. -/
def FileStat.is_dir (s : FileStat) : Bool :=
  (s.perm.getD 0) &&& 0o170000 == 0o40000

/-- Embedding of winfsp FileInfo (the fields filesystem.rs populates). -/
structure FileInfo where
  file_attributes : Nat := 0
  file_size : Nat := 0
  allocation_size : Nat := 0
  creation_time : Nat := 0
  last_access_time : Nat := 0
  last_write_time : Nat := 0
  change_time : Nat := 0
  deriving Repr, DecidableEq

/-- Embedding of unix_to_windows_time (filesystem.rs:210-213):
`(unix_time + 11644473600) * 10_000_000` in u64 arithmetic. -/
def unix_to_windows_time (unix_time : Nat) : Nat :=
  u64 ((unix_time + 11644473600) * 10000000)

/-- Embedding of SftpFileSystem::stat_to_file_info (filesystem.rs:163-194).
`!4095` as a u64 literal is 2^64 - 4096. -/
def stat_to_file_info (stat : FileStat) : FileInfo :=
  let file_size := stat.size.getD 0
  let allocation_size := (u64 (file_size + 4095)) &&& 18446744073709547520
  let file_attributes := if stat.is_dir then 0x10 else 0x80
  match stat.mtime with
  | some mtime =>
    let windows_time := unix_to_windows_time mtime
    { file_attributes := file_attributes
      file_size := file_size
      allocation_size := allocation_size
      creation_time := windows_time
      last_access_time := windows_time
      last_write_time := windows_time
      change_time := windows_time }
  | none =>
    let default_time := unix_to_windows_time 1704067200
    { file_attributes := file_attributes
      file_size := file_size
      allocation_size := allocation_size
      creation_time := default_time
      last_access_time := default_time
      last_write_time := default_time
      change_time := default_time }

/-- Embedding of SftpFileSystem::default_dir_stat (filesystem.rs:197-206). -/
def default_dir_stat : FileStat :=
  { size := some 0
    uid := none
    gid := none
    perm := some 0o040755
    atime := none
    mtime := some 1704067200 }

/-- Written from the spec sentence for C3: the nearest 4096-byte multiple at
or above n, as exact (unbounded) arithmetic. -/
def specAllocationSize (n : Nat) : Nat := (n + 4095) / 4096 * 4096

/-- Bitmask fact behind the allocation-size computation: for x below 2^64,
ANDing with the u64 complement of 4095 floors x to a multiple of 4096. -/
theorem land_not4095_eq (x : Nat) (hx : x < 18446744073709551616) :
    x &&& 18446744073709547520 = x / 4096 * 4096 := by
  have hmask : (18446744073709547520 : Nat) = (4503599627370495 : Nat) <<< 12 := by decide
  have hres : x / 4096 * 4096 = (x >>> 12) <<< 12 := by
    rw [Nat.shiftRight_eq_div_pow, Nat.shiftLeft_eq]
  rw [hmask, hres]
  apply Nat.eq_of_testBit_eq
  intro i
  rw [Nat.testBit_and, Nat.testBit_shiftLeft, Nat.testBit_shiftLeft,
    Nat.testBit_shiftRight]
  have h52 : (4503599627370495 : Nat) = 2 ^ 52 - 1 := by decide
  rw [h52, Nat.testBit_two_pow_sub_one]
  by_cases h12 : 12 ≤ i
  · have hadd : 12 + (i - 12) = i := by omega
    rw [hadd]
    by_cases h64 : i < 64
    · have : i - 12 < 52 := by omega
      simp [h12, this]
    · have hxi : x.testBit i = false := by
        apply Nat.testBit_lt_two_pow
        calc x < 18446744073709551616 := hx
          _ = 2 ^ 64 := by norm_num
          _ ≤ 2 ^ i := Nat.pow_le_pow_right (by norm_num) (by omega)
      have : ¬(i - 12 < 52) := by omega
      simp [hxi, this]
  · simp [h12]

/-- C3 (corrected): within u64 range (size + 4095 and the scaled mtime not
overflowing 64 bits), the attribute block has file_size equal to the stat
size (0 when absent), allocation_size equal to file_size rounded up to the
nearest 4096-byte multiple, and all four timestamps equal to
(mtime + 11644473600) * 10^7, or to that conversion of the default epoch
1704067200 when mtime is absent. The unbounded original claim fails by u64
wraparound (see the counterexample). -/
theorem spec_C3_corrected (stat : FileStat)
    (hsize : stat.size.getD 0 + 4095 < 18446744073709551616)
    (hmtime : ∀ m, stat.mtime = some m →
      (m + 11644473600) * 10000000 < 18446744073709551616) :
    (stat_to_file_info stat).file_size = stat.size.getD 0 ∧
    (stat_to_file_info stat).allocation_size =
      specAllocationSize ((stat_to_file_info stat).file_size) ∧
    (∀ m, stat.mtime = some m →
      (stat_to_file_info stat).creation_time = (m + 11644473600) * 10000000 ∧
      (stat_to_file_info stat).last_access_time = (m + 11644473600) * 10000000 ∧
      (stat_to_file_info stat).last_write_time = (m + 11644473600) * 10000000 ∧
      (stat_to_file_info stat).change_time = (m + 11644473600) * 10000000) ∧
    (stat.mtime = none →
      (stat_to_file_info stat).creation_time =
        (1704067200 + 11644473600) * 10000000 ∧
      (stat_to_file_info stat).last_access_time =
        (1704067200 + 11644473600) * 10000000 ∧
      (stat_to_file_info stat).last_write_time =
        (1704067200 + 11644473600) * 10000000 ∧
      (stat_to_file_info stat).change_time =
        (1704067200 + 11644473600) * 10000000) := by
  have halloc :
      (u64 (stat.size.getD 0 + 4095)) &&& 18446744073709547520 =
        specAllocationSize (stat.size.getD 0) := by
    unfold u64
    rw [Nat.mod_eq_of_lt hsize, land_not4095_eq _ hsize]
    rfl
  have hdef : unix_to_windows_time 1704067200 =
      (1704067200 + 11644473600) * 10000000 := by decide
  rcases hmt : stat.mtime with _ | m
  · refine ⟨?_, ?_, ?_, ?_⟩
    · simp [stat_to_file_info, hmt]
    · simp [stat_to_file_info, hmt, halloc]
    · intro m hm
      exact absurd hm (by simp)
    · intro _
      refine ⟨?_, ?_, ?_, ?_⟩ <;> simp [stat_to_file_info, hmt, hdef]
  · have hconv : unix_to_windows_time m = (m + 11644473600) * 10000000 := by
      unfold unix_to_windows_time u64
      exact Nat.mod_eq_of_lt (hmtime m hmt)
    refine ⟨?_, ?_, ?_, ?_⟩
    · simp [stat_to_file_info, hmt]
    · simp [stat_to_file_info, hmt, halloc]
    · intro m' hm'
      have hmm : m = m' := by injection hm'
      subst hmm
      refine ⟨?_, ?_, ?_, ?_⟩ <;> simp [stat_to_file_info, hmt, hconv]
    · intro hnone
      exact absurd hnone (by simp)

/-- C3 counterexample: at a remote stat of size 2^64 - 1 the u64 expression
`(file_size + 4095) & !4095` wraps, producing allocation_size 0 instead of
the claimed round-up to the nearest 4096-byte multiple (which would be 2^64,
in particular at least file_size). -/
theorem spec_C3_counterexample :
    (stat_to_file_info
      { size := some 18446744073709551615, uid := none, gid := none,
        perm := none, atime := none, mtime := some 0 }).file_size =
      18446744073709551615 ∧
    (stat_to_file_info
      { size := some 18446744073709551615, uid := none, gid := none,
        perm := none, atime := none, mtime := some 0 }).allocation_size = 0 ∧
    (stat_to_file_info
      { size := some 18446744073709551615, uid := none, gid := none,
        perm := none, atime := none, mtime := some 0 }).allocation_size ≠
      specAllocationSize 18446744073709551615 := by
  refine ⟨by decide, by decide, by decide⟩

/-- Witness for spec_C3_corrected at the spec's own scenario: size 10,
mtime t = 1700000000. -/
theorem spec_C3_witness :
    (stat_to_file_info
      { size := some 10, uid := none, gid := none,
        perm := none, atime := none, mtime := some 1700000000 }).file_size = 10 ∧
    (stat_to_file_info
      { size := some 10, uid := none, gid := none,
        perm := none, atime := none, mtime := some 1700000000 }).allocation_size
      = 4096 ∧
    (stat_to_file_info
      { size := some 10, uid := none, gid := none,
        perm := none, atime := none, mtime := some 1700000000 }).creation_time
      = (1700000000 + 11644473600) * 10000000 := by
  have h := spec_C3_corrected
    { size := some 10, uid := none, gid := none,
      perm := none, atime := none, mtime := some 1700000000 }
    (by decide)
    (by
      intro m hm
      have hmm : (1700000000 : Nat) = m := by injection hm
      subst hmm
      decide)
  refine ⟨h.1, ?_, (h.2.2.1 1700000000 rfl).1⟩
  rw [h.2.1, h.1]
  decide

/-- TTL constant STAT_CACHE_TTL_SECS (filesystem.rs:17). -/
def STAT_CACHE_TTL_SECS : Nat := 5

/-- Nanoseconds per second; Instant values are modeled as Nat nanosecond
counts since process start, so elapsed().as_secs() is truncating division. -/
def nsPerSec : Nat := 1000000000

/-- Embedding of CachedStat (filesystem.rs:20-23): a stat plus the Instant
at which it was captured. -/
structure CachedStat where
  stat : FileStat
  cached_at : Nat
  deriving Repr, DecidableEq

/-- Lookup in the stats HashMap, modeled as an association list where the
most recent insert sits at the front. -/
def lookupStat : List (String × CachedStat) → String → Option CachedStat
  | [], _ => none
  | (k, v) :: rest, p => if k = p then some v else lookupStat rest p

/-- Embedding of HashMap::insert on the stats map: the new binding shadows
any earlier binding for the same path. -/
def insertStat (c : List (String × CachedStat)) (p : String) (e : CachedStat) :
    List (String × CachedStat) := (p, e) :: c

/-- Embedding of SftpFileSystem::cached_stat (filesystem.rs:69-77): a cached
entry is returned only while `elapsed().as_secs() < STAT_CACHE_TTL_SECS`. -/
def cached_stat (c : List (String × CachedStat)) (now : Nat) (path : String) :
    Option FileStat :=
  match lookupStat c path with
  | some entry =>
    if (now - entry.cached_at) / nsPerSec < STAT_CACHE_TTL_SECS then
      some entry.stat
    else
      none
  | none => none

/-- Embedding of SftpFileSystem::stat_with_cache (filesystem.rs:80-98); the
outcome of the remote client.stat call is passed in as `remote`. -/
def stat_with_cache (c : List (String × CachedStat)) (now : Nat) (path : String)
    (remote : Except String FileStat) :
    Except String FileStat × List (String × CachedStat) :=
  match cached_stat c now path with
  | some cached => (.ok cached, c)
  | none =>
    match remote with
    | .error e => (.error e, c)
    | .ok stat => (.ok stat, insertStat c path ⟨stat, now⟩)

/-- Replay of a sequence of cache writes (oldest first) onto a cache. -/
def applyWrites :
    List (String × CachedStat) → List (String × CachedStat) →
      List (String × CachedStat)
  | [], c => c
  | w :: ws, c => applyWrites ws (insertStat c w.1 w.2)

/-- Most recent write for a path in a write sequence (oldest first). -/
def lastWrite : List (String × CachedStat) → String → Option CachedStat
  | [], _ => none
  | w :: ws, p =>
    match lastWrite ws p with
    | some e => some e
    | none => if w.1 = p then some w.2 else none

/-- Cache lookup after replaying writes finds exactly the most recent write
for the path (falling back to the initial cache). -/
theorem lookupStat_applyWrites (ws c : List (String × CachedStat)) (p : String) :
    lookupStat (applyWrites ws c) p =
      match lastWrite ws p with
      | some e => some e
      | none => lookupStat c p := by
  induction ws generalizing c with
  | nil => rfl
  | cons w ws ih =>
    show lookupStat (applyWrites ws (insertStat c w.1 w.2)) p = _
    rw [ih]
    cases h : lastWrite ws p with
    | some e => simp [lastWrite, h]
    | none =>
      by_cases hw : w.1 = p <;>
        simp [lastWrite, h, insertStat, lookupStat, hw]

/-- C1: over any sequence of cache writes, the attribute-cache lookup
returns a record iff the most recent write for that path is strictly
younger than the 5-second TTL, and the record returned is exactly the one
stored by that most recent write; on a miss, stat_with_cache returns the
remote stat result and stores exactly it with the current capture time; on
a hit within the TTL it returns the cached record untouched. -/
theorem spec_C1 :
    (∀ (ws : List (String × CachedStat)) (now : Nat) (p : String) (s : FileStat),
      cached_stat (applyWrites ws []) now p = some s ↔
        ∃ e, lastWrite ws p = some e ∧ e.stat = s ∧
          now - e.cached_at < STAT_CACHE_TTL_SECS * nsPerSec) ∧
    (∀ c now p s, cached_stat c now p = none →
      stat_with_cache c now p (.ok s) = (.ok s, insertStat c p ⟨s, now⟩)) ∧
    (∀ c now p s remote, cached_stat c now p = some s →
      stat_with_cache c now p remote = (.ok s, c)) := by
  have hdiv : ∀ a : Nat, a / nsPerSec < STAT_CACHE_TTL_SECS ↔
      a < STAT_CACHE_TTL_SECS * nsPerSec := by
    intro a
    exact Nat.div_lt_iff_lt_mul (by unfold nsPerSec; norm_num)
  refine ⟨?_, ?_, ?_⟩
  · intro ws now p s
    unfold cached_stat
    rw [lookupStat_applyWrites]
    cases h : lastWrite ws p with
    | none => simp [lookupStat]
    | some e =>
      simp only [h]
      by_cases ht : (now - e.cached_at) / nsPerSec < STAT_CACHE_TTL_SECS
      · have ht' := (hdiv (now - e.cached_at)).mp ht
        simp [ht, ht', eq_comm]
      · have ht' : ¬ now - e.cached_at < STAT_CACHE_TTL_SECS * nsPerSec :=
          fun hlt => ht ((hdiv (now - e.cached_at)).mpr hlt)
        simp [ht]
        intro _
        exact Nat.le_of_not_lt ht'
  · intro c now p s h
    simp [stat_with_cache, h]
  · intro c now p s remote h
    simp [stat_with_cache, h]

/-- Witness for spec_C1: on the empty cache the lookup misses, so
stat_with_cache stores the remote result; on the resulting cache a lookup
at the same instant returns it unchanged. -/
theorem spec_C1_witness :
    stat_with_cache [] 0 "a" (.ok default_dir_stat) =
      (.ok default_dir_stat, insertStat [] "a" ⟨default_dir_stat, 0⟩) ∧
    stat_with_cache (insertStat [] "a" ⟨default_dir_stat, 0⟩) 0 "a"
        (.error "unreachable") =
      (.ok default_dir_stat, insertStat [] "a" ⟨default_dir_stat, 0⟩) := by
  refine ⟨spec_C1.2.1 [] 0 "a" default_dir_stat rfl,
    spec_C1.2.2 (insertStat [] "a" ⟨default_dir_stat, 0⟩) 0 "a"
      default_dir_stat (.error "unreachable") (by decide)⟩

/-- Embedding of SftpFileSystem::create_handle (filesystem.rs:155-160): the
u64 counter next_handle starts at 1; a call hands out the current counter
value and increments the counter (wrapping u64 arithmetic). -/
def create_handle (next : Nat) : Nat × Nat := (next, u64 (next + 1))

/-- Counter value after k allocations, from the initial next_handle = 1. -/
def nextAfter : Nat → Nat
  | 0 => 1
  | k + 1 => (create_handle (nextAfter k)).2

/-- Handle returned by the (k+1)-st allocation (0-indexed k). -/
def allocatedHandle (k : Nat) : Nat := (create_handle (nextAfter k)).1

/-- Closed form of the handle counter under u64 wraparound. -/
theorem nextAfter_closed (k : Nat) :
    nextAfter k = (1 + k) % 18446744073709551616 := by
  induction k with
  | zero => rfl
  | succ k ih =>
    show u64 (nextAfter k + 1) = _
    rw [ih]
    unfold u64
    omega

/-- C8 (corrected): handle allocation starts at 1 and is strictly
increasing — hence no handle is ever reused — as long as the total number
of allocations stays below 2^64 - 1; beyond that the u64 counter wraps
(see the counterexample). -/
theorem spec_C8_corrected (i j : Nat) (hij : i < j)
    (hj : j < 18446744073709551615) :
    allocatedHandle 0 = 1 ∧ allocatedHandle i < allocatedHandle j := by
  refine ⟨rfl, ?_⟩
  show nextAfter i < nextAfter j
  rw [nextAfter_closed, nextAfter_closed]
  omega

/-- Witness for spec_C8_corrected at the first two allocations. -/
theorem spec_C8_witness :
    allocatedHandle 0 = 1 ∧ allocatedHandle 0 < allocatedHandle 1 :=
  spec_C8_corrected 0 1 (by norm_num) (by norm_num)

/-- C8 counterexample: the u64 handle counter wraps, so allocation number
2^64 returns 0 — smaller than the first handle — and allocation number
2^64 + 1 returns 1 again, reusing the very first handle within one process
lifetime. -/
theorem spec_C8_counterexample :
    allocatedHandle 0 = 1 ∧
    allocatedHandle 18446744073709551615 = 0 ∧
    allocatedHandle 18446744073709551615 < allocatedHandle 0 ∧
    allocatedHandle 18446744073709551616 = allocatedHandle 0 := by
  have h : ∀ k, allocatedHandle k = (1 + k) % 18446744073709551616 :=
    fun k => nextAfter_closed k
  simp only [h]
  refine ⟨by decide, by decide, by decide, by decide⟩

/-- Embedding of SftpFileContext (filesystem.rs:38-41). -/
structure SftpFileContext where
  path : String
  is_directory : Bool
  deriving Repr, DecidableEq

/-- Lookup in the open_files HashMap (handle → context), modeled as an
association list with first-match lookup. -/
def lookupHandle : List (Nat × SftpFileContext) → Nat → Option SftpFileContext
  | [], _ => none
  | (k, v) :: rest, h => if k = h then some v else lookupHandle rest h

/-- Embedding of SftpClient::read_file_range (sftp_client.rs:153-176): open
the remote file (the model passes the remote file contents, or none when
the path cannot be opened), seek to offset — seeking past end-of-file is
legal — and read up to `length` bytes, truncating the buffer to the byte
count actually read. -/
def read_file_range (file : Option (List Nat)) (offset : Nat) (length : Nat) :
    Except String (List Nat) :=
  match file with
  | none => .error "파일 열기 실패"
  | some contents => .ok ((contents.drop offset).take length)

/-- Embedding of the read callback of FileSystemContext for SftpFileSystem
(filesystem.rs:315-353): resolve the handle, call read_file_range with the
buffer length, copy `bytes_read = min(data.len, buffer.len)` bytes into the
output buffer and return `bytes_read as u32`. The pair returned is (bytes
placed in the buffer, reported count). -/
def fs_read (openFiles : List (Nat × SftpFileContext)) (handle : Nat)
    (file : Option (List Nat)) (bufferLen : Nat) (offset : Nat) :
    Except String (List Nat × Nat) :=
  match lookupHandle openFiles handle with
  | none => .error "Invalid handle"
  | some _ =>
    match read_file_range file offset bufferLen with
    | .error e => .error e
    | .ok data =>
      let bytes_read := min data.length bufferLen
      .ok (data.take bytes_read, u32 bytes_read)

/-- C7: a ranged read whose offset + length exceeds the file size succeeds,
returns exactly the bytes available between offset and end-of-file (zero
bytes at or past end-of-file) — never more than `length` — and the adapter
read callback copies exactly those bytes and reports their count; a short
read is reported as success, not as an error. -/
theorem spec_C7 (openFiles : List (Nat × SftpFileContext)) (handle : Nat)
    (ctx : SftpFileContext) (contents : List Nat) (offset length : Nat)
    (hh : lookupHandle openFiles handle = some ctx)
    (hover : contents.length < offset + length)
    (hlen : length < 4294967296) :
    read_file_range (some contents) offset length =
      .ok ((contents.drop offset).take length) ∧
    ((contents.drop offset).take length).length =
      min length (contents.length - offset) ∧
    ((contents.drop offset).take length).length ≤ length ∧
    (contents.length ≤ offset → ((contents.drop offset).take length).length = 0) ∧
    (offset < contents.length →
      ((contents.drop offset).take length).length < length) ∧
    fs_read openFiles handle (some contents) length offset =
      .ok ((contents.drop offset).take length,
           ((contents.drop offset).take length).length) := by
  have hlendata : ((contents.drop offset).take length).length =
      min length (contents.length - offset) := by
    rw [List.length_take, List.length_drop]
  refine ⟨rfl, hlendata, ?_, ?_, ?_, ?_⟩
  · rw [hlendata]
    exact Nat.min_le_left _ _
  · intro hpast
    rw [hlendata]
    omega
  · intro hin
    rw [hlendata]
    omega
  · have hd : ((contents.drop offset).take length).length ≤ length := by
      rw [hlendata]; exact Nat.min_le_left _ _
    have hu : u32 ((contents.drop offset).take length).length =
        ((contents.drop offset).take length).length := by
      unfold u32
      exact Nat.mod_eq_of_lt (lt_of_le_of_lt hd hlen)
    rw [hlendata] at hu
    simp [fs_read, hh, read_file_range, Nat.min_eq_left hd, hu,
      List.take_length]

/-- Witness for spec_C7: a 3-byte file read at offset 1 with a 10-byte
buffer yields the 2 remaining bytes and reports 2. -/
theorem spec_C7_witness :
    read_file_range (some [7, 8, 9]) 1 10 = .ok [8, 9] ∧
    fs_read [(1, ⟨"/r/f", false⟩)] 1 (some [7, 8, 9]) 10 1 = .ok ([8, 9], 2) := by
  have h := spec_C7 [(1, ⟨"/r/f", false⟩)] 1 ⟨"/r/f", false⟩ [7, 8, 9] 1 10
    (by decide) (by decide) (by decide)
  exact ⟨h.1, h.2.2.2.2.2⟩

/-- Embedding of AuthType (types.rs). -/
inductive AuthType where
  | password
  | key
  deriving Repr, DecidableEq

/-- Embedding of SshConnection (types.rs). -/
structure SshConnection where
  id : String
  name : String
  host : String
  port : Nat
  username : String
  auth_type : AuthType
  key_path : Option String
  remote_path : String
  drive_letter : Option Char
  deriving Repr, DecidableEq

/-- Embedding of DriveStatusType (types.rs). -/
inductive DriveStatusType where
  | connected
  | disconnected
  | error
  deriving Repr, DecidableEq

/-- Embedding of DriveStatus (types.rs). -/
structure DriveStatus where
  drive_letter : Char
  connection_id : String
  status : DriveStatusType
  error_message : Option String
  deriving Repr, DecidableEq

/-- Environment of SftpClient::connect: the outcome each external ssh2/TCP
step would have, so the connect control flow can be replayed purely. -/
structure SshWorld where
  tcp : Except String Unit
  readTimeout : Except String Unit
  writeTimeout : Except String Unit
  sessionNew : Except String Unit
  handshake : Except String Unit
  knownHosts : Except String Unit
  passwordAuth : String → String → Except String Unit
  keyAuth : String → String → Except String Unit
  authenticated : Bool
  sftp : Except String Unit

/-- Result of a successful connect: an authenticated session plus SFTP
sub-session, identified here by host and username. -/
structure Session where
  host : String
  username : String
  deriving Repr, DecidableEq

/-- Embedding of SftpClient::connect (sftp_client.rs:24-74): TCP connect,
timeouts, session creation, handshake, known-hosts verification, then
authentication per auth_type — a password-auth connect unwraps the optional
password with `ok_or` (only absence is rejected locally; any present string,
empty included, is forwarded to the server) — then the authenticated()
check and the SFTP sub-session start. -/
def connect (conn : SshConnection) (password : Option String) (w : SshWorld) :
    Except String Session := do
  let _ ← w.tcp.mapError (fun e => "TCP 연결 실패: " ++ e)
  let _ ← w.readTimeout.mapError (fun e => "읽기 타임아웃 설정 실패: " ++ e)
  let _ ← w.writeTimeout.mapError (fun e => "쓰기 타임아웃 설정 실패: " ++ e)
  let _ ← w.sessionNew.mapError (fun e => "SSH 세션 생성 실패: " ++ e)
  let _ ← w.handshake.mapError (fun e => "SSH 핸드셰이크 실패: " ++ e)
  let _ ← w.knownHosts
  let _ ← (match conn.auth_type with
    | AuthType.password =>
      match password with
      | none => Except.error "비밀번호가 필요합니다."
      | some pwd =>
        (w.passwordAuth conn.username pwd).mapError
          (fun e => "비밀번호 인증 실패: " ++ e)
    | AuthType.key =>
      match conn.key_path with
      | none => Except.error "SSH 키 경로가 필요합니다."
      | some kp =>
        (w.keyAuth conn.username kp).mapError
          (fun e => "SSH 키 인증 실패: " ++ e))
  if !w.authenticated then
    Except.error "SSH 인증 실패"
  else do
    let _ ← w.sftp.mapError (fun e => "SFTP 세션 시작 실패: " ++ e)
    pure ⟨conn.host, conn.username⟩

/-- C9 (corrected): with the transport stages succeeding, a password-auth
connect with no password fails locally with the password-required error and
yields no session; an empty-string password, however, is not rejected
locally — it is forwarded to the server, and connect fails (with the
authentication-failure error) only if the server rejects it. -/
theorem spec_C9_corrected (conn : SshConnection) (w : SshWorld)
    (hauth : conn.auth_type = AuthType.password)
    (h1 : w.tcp = .ok ()) (h2 : w.readTimeout = .ok ())
    (h3 : w.writeTimeout = .ok ()) (h4 : w.sessionNew = .ok ())
    (h5 : w.handshake = .ok ()) (h6 : w.knownHosts = .ok ()) :
    connect conn none w = .error "비밀번호가 필요합니다." ∧
    (∀ e, w.passwordAuth conn.username "" = .error e →
      connect conn (some "") w = .error ("비밀번호 인증 실패: " ++ e)) := by
  constructor
  · simp only [connect, h1, h2, h3, h4, h5, h6, hauth, Except.mapError]
    rfl
  · intro e he
    simp only [connect, h1, h2, h3, h4, h5, h6, hauth, he, Except.mapError]
    rfl

/-- Witness for spec_C9_corrected with a rejecting server. -/
theorem spec_C9_witness :
    connect
      { id := "c1", name := "n", host := "h", port := 22, username := "u",
        auth_type := AuthType.password, key_path := none,
        remote_path := "/home/u", drive_letter := none }
      none
      { tcp := .ok (), readTimeout := .ok (), writeTimeout := .ok (),
        sessionNew := .ok (), handshake := .ok (), knownHosts := .ok (),
        passwordAuth := fun _ _ => .error "rejected",
        keyAuth := fun _ _ => .ok (), authenticated := true,
        sftp := .ok () } = .error "비밀번호가 필요합니다." ∧
    connect
      { id := "c1", name := "n", host := "h", port := 22, username := "u",
        auth_type := AuthType.password, key_path := none,
        remote_path := "/home/u", drive_letter := none }
      (some "")
      { tcp := .ok (), readTimeout := .ok (), writeTimeout := .ok (),
        sessionNew := .ok (), handshake := .ok (), knownHosts := .ok (),
        passwordAuth := fun _ _ => .error "rejected",
        keyAuth := fun _ _ => .ok (), authenticated := true,
        sftp := .ok () } = .error ("비밀번호 인증 실패: " ++ "rejected") := by
  have h := spec_C9_corrected
    { id := "c1", name := "n", host := "h", port := 22, username := "u",
      auth_type := AuthType.password, key_path := none,
      remote_path := "/home/u", drive_letter := none }
    { tcp := .ok (), readTimeout := .ok (), writeTimeout := .ok (),
      sessionNew := .ok (), handshake := .ok (), knownHosts := .ok (),
      passwordAuth := fun _ _ => .error "rejected",
      keyAuth := fun _ _ => .ok (), authenticated := true,
      sftp := .ok () }
    rfl rfl rfl rfl rfl rfl rfl
  exact ⟨h.1, h.2 "rejected" rfl⟩

/-- C9 counterexample: an empty-string password is not rejected by the
code — if the server accepts it, connect returns a session, contradicting
the claim that an empty-string password always fails with an
authentication-class error and produces no session. -/
theorem spec_C9_counterexample :
    connect
      { id := "c1", name := "n", host := "h", port := 22, username := "u",
        auth_type := AuthType.password, key_path := none,
        remote_path := "/home/u", drive_letter := none }
      (some "")
      { tcp := .ok (), readTimeout := .ok (), writeTimeout := .ok (),
        sessionNew := .ok (), handshake := .ok (), knownHosts := .ok (),
        passwordAuth := fun _ _ => .ok (),
        keyAuth := fun _ _ => .ok (), authenticated := true,
        sftp := .ok () } = .ok ⟨"h", "u"⟩ := rfl

/-- Embedding of MountedDrive (mount.rs:12-18); the shared client and the
filesystem host are opaque tokens here. -/
structure MountedDrive where
  connection_id : String
  drive_letter : Char
  client : Nat
  host : Nat
  deriving Repr, DecidableEq

/-- Lookup in the mounted HashMap (drive letter → MountedDrive), modeled as
an association list with first-match lookup. -/
def lookupDrive : List (Char × MountedDrive) → Char → Option MountedDrive
  | [], _ => none
  | (k, v) :: rest, d => if k = d then some v else lookupDrive rest d

/-- Embedding of `mounted.contains_key(&drive_letter)`. -/
def containsDrive (st : List (Char × MountedDrive)) (d : Char) : Bool :=
  (lookupDrive st d).isSome

/-- Embedding of MountManager::mount (mount.rs:35-72): reject when the
drive letter is already mounted; then create the SFTP client, then create
and start the filesystem host (both passed in as outcomes), and only on
full success insert the MountedDrive entry. -/
def mount (st : List (Char × MountedDrive)) (conn : SshConnection)
    (drive_letter : Char) (clientRes : Except String Nat)
    (hostRes : Nat → Except String Nat) :
    Except String DriveStatus × List (Char × MountedDrive) :=
  if containsDrive st drive_letter then
    (.error ("드라이브 " ++ String.singleton drive_letter ++
      ":는 이미 사용 중입니다."), st)
  else
    match clientRes with
    | .error e => (.error e, st)
    | .ok client =>
      match hostRes client with
      | .error e => (.error e, st)
      | .ok host =>
        (.ok { drive_letter := drive_letter, connection_id := conn.id,
               status := DriveStatusType.connected, error_message := none },
         (drive_letter,
          { connection_id := conn.id, drive_letter := drive_letter,
            client := client, host := host }) :: st)

/-- Embedding of MountManager::unmount (mount.rs:75-87). -/
def unmount (st : List (Char × MountedDrive)) (drive_letter : Char) :
    Except String Unit × List (Char × MountedDrive) :=
  if containsDrive st drive_letter then
    (.ok (), st.filter (fun e => !(e.1 = drive_letter)))
  else
    (.error ("드라이브 " ++ String.singleton drive_letter ++
      ":가 마운트되어 있지 않습니다."), st)

/-- C2: mounting a drive letter that already has an entry fails with the
already-mounted error and leaves the map (hence the existing entry)
unchanged; a failure of SFTP client creation or of filesystem host
creation/registration propagates the error and records no entry — the map
is unchanged on every error path. -/
theorem spec_C2 :
    (∀ st conn d clientRes hostRes, containsDrive st d = true →
      mount st conn d clientRes hostRes =
        (.error ("드라이브 " ++ String.singleton d ++
          ":는 이미 사용 중입니다."), st)) ∧
    (∀ st conn d e hostRes, containsDrive st d = false →
      mount st conn d (.error e) hostRes = (.error e, st)) ∧
    (∀ st conn d client hostRes e, containsDrive st d = false →
      hostRes client = .error e →
      mount st conn d (.ok client) hostRes = (.error e, st)) := by
  refine ⟨?_, ?_, ?_⟩
  · intro st conn d clientRes hostRes h
    simp [mount, h]
  · intro st conn d e hostRes h
    simp [mount, h]
  · intro st conn d client hostRes e h he
    simp [mount, h, he]

/-- Witness for spec_C2: a map holding drive E rejects a second mount of E
unchanged; on the empty map a failing client and a failing host creation
both leave the map empty. -/
theorem spec_C2_witness :
    mount [('E', { connection_id := "c1", drive_letter := 'E',
                   client := 0, host := 0 })]
      { id := "c2", name := "n", host := "h", port := 22, username := "u",
        auth_type := AuthType.password, key_path := none,
        remote_path := "/", drive_letter := none }
      'E' (.ok 1) (fun c => .ok (c + 1)) =
      (.error ("드라이브 " ++ String.singleton 'E' ++
        ":는 이미 사용 중입니다."),
       [('E', { connection_id := "c1", drive_letter := 'E',
                client := 0, host := 0 })]) ∧
    mount []
      { id := "c2", name := "n", host := "h", port := 22, username := "u",
        auth_type := AuthType.password, key_path := none,
        remote_path := "/", drive_letter := none }
      'E' (.error "TCP 연결 실패: refused") (fun c => .ok (c + 1)) =
      (.error "TCP 연결 실패: refused", []) ∧
    mount []
      { id := "c2", name := "n", host := "h", port := 22, username := "u",
        auth_type := AuthType.password, key_path := none,
        remote_path := "/", drive_letter := none }
      'E' (.ok 1) (fun _ => .error "마운트 실패") =
      (.error "마운트 실패", []) := by
  refine ⟨spec_C2.1 _ _ 'E' _ _ (by decide),
    spec_C2.2.1 _ _ 'E' _ _ (by decide),
    spec_C2.2.2 _ _ 'E' 1 _ _ (by decide) rfl⟩

/-- Abstract model of the caller-provided directory buffer: its byte
capacity, the number of bytes a DirInfo<255> entry with a given name
occupies when appended (append_to_buffer succeeds exactly when the entry
fits in the remaining space), and the size of the end-of-listing marker
finalize_buffer writes. -/
structure DirBuffer where
  capacity : Nat
  entrySize : String → Nat
  termSize : Nat

/-- Embedding of the DirInfo<255>::set_name failure condition
(filesystem.rs:503-506): the name does not fit the 255-unit name field. -/
def nameTooLong (name : String) : Bool := 255 < name.length

/-- Embedding of the all_entries construction (filesystem.rs:469-481): "."
and ".." first, both carrying the directory's own FileInfo, then every
remote child in listing order, skipping literal "." and ".." children. -/
def buildAllEntries (dir_stat : FileStat)
    (entries : List (String × FileStat)) : List (String × FileInfo) :=
  let dir_info_data := stat_to_file_info dir_stat
  (".", dir_info_data) :: ("..", dir_info_data) ::
    (entries.filter (fun e => !(e.1 = "." || e.1 = ".."))).map
      (fun e => (e.1, stat_to_file_info e.2))

/-- Embedding of the marker-skip phase of the enumeration loop
(filesystem.rs:485-498): while the marker has not been found, every entry
is skipped, including the first entry whose name equals the marker. -/
def skipAux (m : String) : List (String × FileInfo) → List (String × FileInfo)
  | [] => []
  | e :: rest => if e.1 = m then rest else skipAux m rest

/-- With no marker the loop starts emitting from the first entry. -/
def skipPastMarker (marker : Option String)
    (l : List (String × FileInfo)) : List (String × FileInfo) :=
  match marker with
  | none => l
  | some m => skipAux m l

/-- Embedding of the emission phase of the loop (filesystem.rs:500-513): a
too-long name is skipped (continue); an entry that does not fit the
remaining buffer space stops the loop (break) without consuming the entry;
otherwise the entry is appended and the cursor advances. Returns the names
emitted, in order, and the final cursor. -/
def emitEntries (buf : DirBuffer) :
    List (String × FileInfo) → Nat → List String × Nat
  | [], cursor => ([], cursor)
  | e :: rest, cursor =>
    if nameTooLong e.1 then
      emitEntries buf rest cursor
    else if cursor + buf.entrySize e.1 ≤ buf.capacity then
      let r := emitEntries buf rest (cursor + buf.entrySize e.1)
      (e.1 :: r.1, r.2)
    else
      ([], cursor)

/-- Embedding of the directory self-stat with fallback
(filesystem.rs:451-453): a failed stat falls back to default_dir_stat. -/
def resolveDirStat (res : Except String FileStat) : FileStat :=
  match res with
  | .ok s => s
  | .error _ => default_dir_stat

/-- Embedding of SftpFileSystem::read_directory (filesystem.rs:419-520):
resolve the handle, reject non-directories, resolve the directory stat
(with fallback) and the child listing (an error aborts), build all_entries,
skip past the marker, run the emission loop from cursor 0, finalize the
buffer with the terminating marker, and return the emitted names together
with the byte count. -/
def read_directory (openFiles : List (Nat × SftpFileContext)) (handle : Nat)
    (marker : Option String) (buf : DirBuffer)
    (dirStatRes : Except String FileStat)
    (entriesRes : Except String (List (String × FileStat))) :
    Except String (List String × Nat) :=
  match lookupHandle openFiles handle with
  | none => .error "Invalid handle"
  | some ctx =>
    if !ctx.is_directory then
      .error "Not a directory"
    else
      match entriesRes with
      | .error e => .error e
      | .ok entries =>
        let all_entries := buildAllEntries (resolveDirStat dirStatRes) entries
        let r := emitEntries buf (skipPastMarker marker all_entries) 0
        .ok (r.1, r.2 + buf.termSize)

/-- Total entry bytes a list of names occupies in the buffer model. -/
def namesBytes (buf : DirBuffer) (names : List String) : Nat :=
  names.foldr (fun n acc => buf.entrySize n + acc) 0

theorem namesBytes_nil (buf : DirBuffer) : namesBytes buf [] = 0 := rfl

theorem namesBytes_cons (buf : DirBuffer) (n : String) (ns : List String) :
    namesBytes buf (n :: ns) = buf.entrySize n + namesBytes buf ns := rfl

/-- When every name fits and the whole list fits the remaining capacity,
the emission loop emits every entry in order and advances the cursor by the
total byte size. -/
theorem emitEntries_all (buf : DirBuffer) :
    ∀ (l : List (String × FileInfo)) (c : Nat),
      (∀ e ∈ l, nameTooLong e.1 = false) →
      c + namesBytes buf (l.map Prod.fst) ≤ buf.capacity →
      emitEntries buf l c =
        (l.map Prod.fst, c + namesBytes buf (l.map Prod.fst)) := by
  intro l
  induction l with
  | nil =>
    intro c _ _
    simp [emitEntries, namesBytes]
  | cons e rest ih =>
    intro c hfit hcap
    have hfe : nameTooLong e.1 = false := hfit e (List.mem_cons_self e rest)
    have hrest : ∀ x ∈ rest, nameTooLong x.1 = false :=
      fun x hx => hfit x (List.mem_cons_of_mem e hx)
    have hb : namesBytes buf ((e :: rest).map Prod.fst) =
        buf.entrySize e.1 + namesBytes buf (rest.map Prod.fst) := rfl
    rw [hb] at hcap
    have hsz : c + buf.entrySize e.1 ≤ buf.capacity := by omega
    have hcap' : c + buf.entrySize e.1 + namesBytes buf (rest.map Prod.fst) ≤
        buf.capacity := by omega
    have ihr := ih (c + buf.entrySize e.1) hrest hcap'
    simp [emitEntries, hfe, hsz, ihr, hb, namesBytes_cons]
    omega

/-- The final cursor always equals the starting cursor plus the total byte
size of the emitted names. -/
theorem emitEntries_bytes (buf : DirBuffer) :
    ∀ (l : List (String × FileInfo)) (c : Nat),
      (emitEntries buf l c).2 = c + namesBytes buf (emitEntries buf l c).1 := by
  intro l
  induction l with
  | nil =>
    intro c
    simp [emitEntries, namesBytes]
  | cons e rest ih =>
    intro c
    by_cases hfe : nameTooLong e.1
    · simp [emitEntries, hfe, ih c]
    · by_cases hsz : c + buf.entrySize e.1 ≤ buf.capacity
      · simp [emitEntries, hfe, hsz, namesBytes_cons]
        rw [ih (c + buf.entrySize e.1)]
        omega
      · simp [emitEntries, hfe, hsz, namesBytes]

/-- Under unique names, skipping past the name of the entry at index i
leaves exactly the entries after index i. -/
theorem skipAux_nodup_get :
    ∀ (l : List (String × FileInfo)) (i : Nat) (hi : i < l.length),
      (l.map Prod.fst).Nodup →
      skipAux ((l.get ⟨i, hi⟩).1) l = l.drop (i + 1) := by
  intro l
  induction l with
  | nil =>
    intro i hi
    exact absurd hi (by simp)
  | cons e rest ih =>
    intro i hi hnd
    rw [List.map_cons] at hnd
    have hnd' := List.nodup_cons.mp hnd
    cases i with
    | zero =>
      simp [skipAux]
    | succ i =>
      have hi' : i < rest.length := by simpa using hi
      have hget : ((e :: rest).get ⟨i + 1, hi⟩) = rest.get ⟨i, hi'⟩ := rfl
      have hmem : (rest.get ⟨i, hi'⟩).1 ∈ rest.map Prod.fst :=
        List.mem_map_of_mem Prod.fst (List.get_mem rest i hi')
      have hne : ¬ e.1 = (rest.get ⟨i, hi'⟩).1 := by
        intro hcontra
        exact hnd'.1 (hcontra ▸ hmem)
      rw [hget]
      show skipAux (rest.get ⟨i, hi'⟩).1 (e :: rest) = rest.drop (i + 1)
      simp only [skipAux, hne, if_false]
      exact ih i hi' hnd'.2

/-- A marker matching no entry name makes the skip phase consume the whole
list. -/
theorem skipAux_not_mem :
    ∀ (l : List (String × FileInfo)) (m : String),
      m ∉ l.map Prod.fst → skipAux m l = [] := by
  intro l
  induction l with
  | nil =>
    intro m _
    rfl
  | cons e rest ih =>
    intro m hm
    have h1 : ¬ e.1 = m := by
      intro h
      exact hm (by simp [h])
    have h2 : m ∉ rest.map Prod.fst := by
      intro h
      exact hm (by simp [h])
    simp only [skipAux, h1, if_false]
    exact ih m h2

/-- The names of the synthesized list are "." and ".." followed by the
names of the filtered remote children. -/
theorem buildAllEntries_names (d : FileStat)
    (entries : List (String × FileStat)) :
    (buildAllEntries d entries).map Prod.fst =
      "." :: ".." ::
        (entries.filter (fun e => !(e.1 = "." || e.1 = ".."))).map Prod.fst := by
  simp [buildAllEntries, List.map_map]

/-- Every name in the synthesized list that came from a fitting listing
also fits. -/
theorem buildAllEntries_fit (d : FileStat)
    (entries : List (String × FileStat))
    (hfit : ∀ e ∈ entries, nameTooLong e.1 = false) :
    ∀ e ∈ buildAllEntries d entries, nameTooLong e.1 = false := by
  intro e he
  simp [buildAllEntries] at he
  rcases he with he | he | ⟨a, b, hab, rfl⟩
  · rw [he]
    rfl
  · rw [he]
    rfl
  · exact hfit (a, b) hab.1

/-- Dropping a prefix of the entry list never increases the total entry
bytes. -/
theorem namesBytes_map_drop_le (buf : DirBuffer) :
    ∀ (l : List (String × FileInfo)) (k : Nat),
      namesBytes buf ((l.drop k).map Prod.fst) ≤
        namesBytes buf (l.map Prod.fst) := by
  intro l
  induction l with
  | nil =>
    intro k
    simp
  | cons e rest ih =>
    intro k
    cases k with
    | zero => exact Nat.le_refl _
    | succ k =>
      have h := ih k
      calc namesBytes buf (((e :: rest).drop (k + 1)).map Prod.fst)
          = namesBytes buf ((rest.drop k).map Prod.fst) := rfl
        _ ≤ namesBytes buf (rest.map Prod.fst) := h
        _ ≤ namesBytes buf ((e :: rest).map Prod.fst) := by
            rw [List.map_cons, namesBytes_cons]
            omega

/-- C4: directory enumeration invoked without a continuation marker, on a
listing whose names all encode and which fits the buffer, emits the
self-entry "." first and the parent-entry ".." second, followed by exactly
the remote children in listing order, with any "." or ".." the remote
listing contained skipped. -/
theorem spec_C4 (openFiles : List (Nat × SftpFileContext)) (handle : Nat)
    (ctx : SftpFileContext) (buf : DirBuffer)
    (dirStatRes : Except String FileStat)
    (entries : List (String × FileStat))
    (hh : lookupHandle openFiles handle = some ctx)
    (hdir : ctx.is_directory = true)
    (hfit : ∀ e ∈ entries, nameTooLong e.1 = false)
    (hcap : namesBytes buf ("." :: ".." ::
        (entries.filter (fun e => !(e.1 = "." || e.1 = ".."))).map Prod.fst)
      ≤ buf.capacity) :
    read_directory openFiles handle none buf dirStatRes (.ok entries) =
      .ok ("." :: ".." ::
        (entries.filter (fun e => !(e.1 = "." || e.1 = ".."))).map Prod.fst,
        namesBytes buf ("." :: ".." ::
          (entries.filter (fun e => !(e.1 = "." || e.1 = ".."))).map Prod.fst)
          + buf.termSize) := by
  have hfitAll := buildAllEntries_fit (resolveDirStat dirStatRes) entries hfit
  have hcap0 : 0 + namesBytes buf
      ((buildAllEntries (resolveDirStat dirStatRes) entries).map Prod.fst) ≤
      buf.capacity := by
    rw [buildAllEntries_names]
    simpa using hcap
  have hmain := emitEntries_all buf
    (buildAllEntries (resolveDirStat dirStatRes) entries) 0 hfitAll hcap0
  rw [buildAllEntries_names] at hmain
  simp [read_directory, hh, hdir, skipPastMarker, hmain]

/-- Witness for spec_C4: a listing holding "a.txt", a literal ".", and "b"
enumerates as ".", "..", "a.txt", "b". -/
theorem spec_C4_witness :
    read_directory [(1, ⟨"/root", true⟩)] 1 none
      ⟨100, fun n => n.length + 8, 2⟩ (.ok default_dir_stat)
      (.ok [("a.txt", default_dir_stat), (".", default_dir_stat),
            ("b", default_dir_stat)]) =
      .ok ("." :: ".." ::
        (([("a.txt", default_dir_stat), (".", default_dir_stat),
           ("b", default_dir_stat)].filter
            (fun e => !(e.1 = "." || e.1 = ".."))).map Prod.fst),
        namesBytes ⟨100, fun n => n.length + 8, 2⟩ ("." :: ".." ::
          (([("a.txt", default_dir_stat), (".", default_dir_stat),
             ("b", default_dir_stat)].filter
              (fun e => !(e.1 = "." || e.1 = ".."))).map Prod.fst))
          + (2 : Nat)) :=
  spec_C4 [(1, ⟨"/root", true⟩)] 1 ⟨"/root", true⟩
    ⟨100, fun n => n.length + 8, 2⟩ (.ok default_dir_stat)
    [("a.txt", default_dir_stat), (".", default_dir_stat),
     ("b", default_dir_stat)]
    (by decide) rfl (by decide) (by decide)

/-- C5: on an unchanged listing with pairwise-distinct names, all of which
encode and fit, enumeration resumed with a marker equal to the name of the
entry at index i emits exactly the entries after index i — the matched
entry is not re-emitted — and with no marker the skip phase leaves the list
untouched, so enumeration starts at the beginning. -/
theorem spec_C5 (openFiles : List (Nat × SftpFileContext)) (handle : Nat)
    (ctx : SftpFileContext) (buf : DirBuffer)
    (dirStatRes : Except String FileStat)
    (entries : List (String × FileStat))
    (hh : lookupHandle openFiles handle = some ctx)
    (hdir : ctx.is_directory = true)
    (hfit : ∀ e ∈ entries, nameTooLong e.1 = false)
    (hcap : namesBytes buf
        ((buildAllEntries (resolveDirStat dirStatRes) entries).map Prod.fst)
      ≤ buf.capacity)
    (hnodup :
      ((buildAllEntries (resolveDirStat dirStatRes) entries).map Prod.fst).Nodup)
    (i : Nat)
    (hi : i < (buildAllEntries (resolveDirStat dirStatRes) entries).length) :
    read_directory openFiles handle
        (some (((buildAllEntries (resolveDirStat dirStatRes) entries).get
          ⟨i, hi⟩).1))
        buf dirStatRes (.ok entries) =
      .ok ((((buildAllEntries (resolveDirStat dirStatRes) entries).drop
          (i + 1)).map Prod.fst),
        namesBytes buf
          (((buildAllEntries (resolveDirStat dirStatRes) entries).drop
            (i + 1)).map Prod.fst) + buf.termSize) ∧
    skipPastMarker none (buildAllEntries (resolveDirStat dirStatRes) entries) =
      buildAllEntries (resolveDirStat dirStatRes) entries := by
  have hskip := skipAux_nodup_get
    (buildAllEntries (resolveDirStat dirStatRes) entries) i hi hnodup
  have hfitAll := buildAllEntries_fit (resolveDirStat dirStatRes) entries hfit
  have hfitDrop : ∀ e ∈ (buildAllEntries (resolveDirStat dirStatRes)
      entries).drop (i + 1), nameTooLong e.1 = false :=
    fun e he => hfitAll e (List.mem_of_mem_drop he)
  have hcapDrop : 0 + namesBytes buf
      (((buildAllEntries (resolveDirStat dirStatRes) entries).drop
        (i + 1)).map Prod.fst) ≤ buf.capacity := by
    have h := namesBytes_map_drop_le buf
      (buildAllEntries (resolveDirStat dirStatRes) entries) (i + 1)
    omega
  have hmain := emitEntries_all buf
    ((buildAllEntries (resolveDirStat dirStatRes) entries).drop (i + 1)) 0
    hfitDrop hcapDrop
  simp only [List.get_eq_getElem] at hskip
  refine ⟨?_, rfl⟩
  simp [read_directory, hh, hdir, skipPastMarker, hskip, hmain]

/-- Witness for spec_C5: with entries x, y the synthesized list is
".", "..", "x", "y"; resuming at the marker "x" (index 2) emits only "y". -/
theorem spec_C5_witness :
    read_directory [(1, ⟨"/root", true⟩)] 1
      (some (((buildAllEntries
        (resolveDirStat (.ok default_dir_stat))
        [("x", default_dir_stat), ("y", default_dir_stat)]).get
          ⟨2, by decide⟩).1))
      ⟨100, fun n => n.length + 8, 2⟩ (.ok default_dir_stat)
      (.ok [("x", default_dir_stat), ("y", default_dir_stat)]) =
      .ok ((((buildAllEntries (resolveDirStat (.ok default_dir_stat))
          [("x", default_dir_stat), ("y", default_dir_stat)]).drop 3).map
            Prod.fst),
        namesBytes ⟨100, fun n => n.length + 8, 2⟩
          (((buildAllEntries (resolveDirStat (.ok default_dir_stat))
            [("x", default_dir_stat), ("y", default_dir_stat)]).drop 3).map
              Prod.fst) + (2 : Nat)) ∧
    skipPastMarker none (buildAllEntries
        (resolveDirStat (.ok default_dir_stat))
        [("x", default_dir_stat), ("y", default_dir_stat)]) =
      buildAllEntries (resolveDirStat (.ok default_dir_stat))
        [("x", default_dir_stat), ("y", default_dir_stat)] :=
  spec_C5 [(1, ⟨"/root", true⟩)] 1 ⟨"/root", true⟩
    ⟨100, fun n => n.length + 8, 2⟩ (.ok default_dir_stat)
    [("x", default_dir_stat), ("y", default_dir_stat)]
    (by decide) rfl (by decide) (by decide) (by decide) 2 (by decide)

/-- C10: a continuation marker matching no name in the synthesized list
makes the loop skip every entry: the call still succeeds, emits nothing,
and returns only the terminating marker's bytes. -/
theorem spec_C10 (openFiles : List (Nat × SftpFileContext)) (handle : Nat)
    (ctx : SftpFileContext) (buf : DirBuffer)
    (dirStatRes : Except String FileStat)
    (entries : List (String × FileStat)) (m : String)
    (hh : lookupHandle openFiles handle = some ctx)
    (hdir : ctx.is_directory = true)
    (hm : m ∉ (buildAllEntries (resolveDirStat dirStatRes) entries).map
      Prod.fst) :
    read_directory openFiles handle (some m) buf dirStatRes (.ok entries) =
      .ok ([], buf.termSize) := by
  have hskip := skipAux_not_mem
    (buildAllEntries (resolveDirStat dirStatRes) entries) m hm
  simp [read_directory, hh, hdir, skipPastMarker, hskip, emitEntries]

/-- Witness for spec_C10 with a marker naming a vanished entry. -/
theorem spec_C10_witness :
    read_directory [(1, ⟨"/root", true⟩)] 1 (some "zzz")
      ⟨100, fun n => n.length + 8, 2⟩ (.ok default_dir_stat)
      (.ok [("a", default_dir_stat)]) = .ok ([], 2) :=
  spec_C10 [(1, ⟨"/root", true⟩)] 1 ⟨"/root", true⟩
    ⟨100, fun n => n.length + 8, 2⟩ (.ok default_dir_stat)
    [("a", default_dir_stat)] "zzz" (by decide) rfl (by decide)

/-- C6: an entry whose name is too long to encode is skipped without
aborting the enumeration (the loop result equals that of the list without
the entry); an encodable entry that does not fit the remaining buffer space
stops the loop immediately without consuming it or anything after it; and
every successful read_directory call returns as its byte count the bytes
of the entries it emitted plus the terminating marker written after the
loop. -/
theorem spec_C6 :
    (∀ (buf : DirBuffer) (l1 l2 : List (String × FileInfo))
        (e : String × FileInfo) (c : Nat),
      nameTooLong e.1 = true →
      emitEntries buf (l1 ++ e :: l2) c = emitEntries buf (l1 ++ l2) c) ∧
    (∀ (buf : DirBuffer) (e : String × FileInfo)
        (rest : List (String × FileInfo)) (c : Nat),
      nameTooLong e.1 = false → buf.capacity < c + buf.entrySize e.1 →
      emitEntries buf (e :: rest) c = ([], c)) ∧
    (∀ (openFiles : List (Nat × SftpFileContext)) (handle : Nat)
        (ctx : SftpFileContext) (marker : Option String) (buf : DirBuffer)
        (dirStatRes : Except String FileStat)
        (entries : List (String × FileStat)) (names : List String)
        (bytes : Nat),
      lookupHandle openFiles handle = some ctx →
      ctx.is_directory = true →
      read_directory openFiles handle marker buf dirStatRes (.ok entries) =
        .ok (names, bytes) →
      bytes = namesBytes buf names + buf.termSize) := by
  refine ⟨?_, ?_, ?_⟩
  · intro buf l1 l2 e c he
    induction l1 generalizing c with
    | nil => simp [emitEntries, he]
    | cons f l1 ih =>
      by_cases hf : nameTooLong f.1
      · simp [emitEntries, hf, ih]
      · by_cases hs : c + buf.entrySize f.1 ≤ buf.capacity
        · simp [emitEntries, hf, hs, ih]
        · simp [emitEntries, hf, hs]
  · intro buf e rest c he hcap
    have hns : ¬(c + buf.entrySize e.1 ≤ buf.capacity) := by omega
    simp [emitEntries, he, hns]
  · intro openFiles handle ctx marker buf dirStatRes entries names bytes
      hh hdir heq
    simp [read_directory, hh, hdir] at heq
    have hb := emitEntries_bytes buf
      (skipPastMarker marker (buildAllEntries (resolveDirStat dirStatRes)
        entries)) 0
    rw [← heq.1, ← heq.2, hb]
    simp

set_option maxRecDepth 4000 in
/-- Witness for spec_C6: a 256-character name is skipped without aborting;
a 9-byte entry does not fit a 3-byte buffer and stops the loop at cursor 0;
a successful enumeration returns entry bytes plus terminator bytes. -/
theorem spec_C6_witness :
    emitEntries ⟨100, fun n => n.length, 1⟩
      ([("a", ⟨0, 0, 0, 0, 0, 0, 0⟩)] ++
        (String.mk (List.replicate 256 'z'), ⟨0, 0, 0, 0, 0, 0, 0⟩) ::
        [("b", ⟨0, 0, 0, 0, 0, 0, 0⟩)]) 0 =
      emitEntries ⟨100, fun n => n.length, 1⟩
        ([("a", ⟨0, 0, 0, 0, 0, 0, 0⟩)] ++ [("b", ⟨0, 0, 0, 0, 0, 0, 0⟩)]) 0 ∧
    emitEntries ⟨3, fun n => n.length + 8, 2⟩
      [("x", ⟨0, 0, 0, 0, 0, 0, 0⟩), ("y", ⟨0, 0, 0, 0, 0, 0, 0⟩)] 0 =
      ([], 0) ∧
    (9 : Nat) = namesBytes ⟨100, fun n => n.length, 5⟩ [".", "..", "a"] + 5 :=
  ⟨spec_C6.1 ⟨100, fun n => n.length, 1⟩ [("a", ⟨0, 0, 0, 0, 0, 0, 0⟩)]
      [("b", ⟨0, 0, 0, 0, 0, 0, 0⟩)]
      (String.mk (List.replicate 256 'z'), ⟨0, 0, 0, 0, 0, 0, 0⟩) 0
      (by decide),
   spec_C6.2.1 ⟨3, fun n => n.length + 8, 2⟩ ("x", ⟨0, 0, 0, 0, 0, 0, 0⟩)
      [("y", ⟨0, 0, 0, 0, 0, 0, 0⟩)] 0 (by decide) (by decide),
   spec_C6.2.2 [(1, ⟨"/r", true⟩)] 1 ⟨"/r", true⟩ none
      ⟨100, fun n => n.length, 5⟩ (.error "boom") [("a", default_dir_stat)]
      [".", "..", "a"] 9 rfl rfl rfl⟩
